import Mathlib

/-!
Shallow embedding of src/index.ts, a Go-style context library for
JavaScript: cancellation contexts with deadlines, done-handler
registration, parent-to-child cancellation propagation, and the
raceContext promise utility.  Line numbers in the doc comments refer to
src/index.ts.
-/

namespace JsCtx

/-- JavaScript values that can occupy the error slot of a cancel context or
serve as a cancellation cause.  The source declares the slot as
Error | null, but the trigger returned by withDeadline (line 242) passes the
boolean true through an as-any cast, so the model includes it.  vnull stands
for null or undefined (an absent cause); errDeadline and errCancelled are
the two singleton Error values of lines 7 and 14; errOther covers any other
value a parent may propagate. -/
inductive JSVal where
  | vnull
  | vtrue
  | errDeadline
  | errCancelled
  | errOther (n : Nat)
deriving DecidableEq

/-- Truthiness of a modelled JavaScript value, as tested by the
if-not-err check of line 219. -/
def truthy : JSVal → Bool
  | .vnull => false
  | _ => true

/-- The effect a registered done handler can have on the node firing it:
nop models a handler whose body does not touch the handler list, and
unreg t models a handler whose body calls the unregister closure that
doneHandler returned for token t (lines 209-211). -/
inductive HandlerAct where
  | nop
  | unreg (t : Nat)
deriving DecidableEq

/-- Mutable state of a _CancelContext (lines 172-177): the error slot, the
ordered done-handler list as pairs of token and handler, and whether the
field holding the parent unregister closure is non-null.  Tokens model the
fresh Symbol of line 207. -/
structure NodeState where
  error : Option JSVal
  doneHandlers : List (Nat × HandlerAct)
  unregParent : Bool
deriving DecidableEq

/-- Running one handler body against the live handler-list field: the
unregister closure of lines 209-211 replaces the field with a filtered copy
of the current array; a nop body leaves it alone. -/
def applyAct : HandlerAct → List (Nat × HandlerAct) → List (Nat × HandlerAct)
  | .nop, live => live
  | .unreg t, live => live.filter (fun x => x.1 ≠ t)

/-- The firing loop of lines 226-227.  The for-of statement iterates the
array the field held when the loop started (a snapshot); a handler body may
reassign the field, since unregister builds a new array with filter, but the
iteration is unaffected.  The first component collects the tokens whose
handlers were invoked, in order; the second is the final live field. -/
def firePass : List (Nat × HandlerAct) → List (Nat × HandlerAct) →
    List Nat × List (Nat × HandlerAct)
  | [], live => ([], live)
  | (t, a) :: rest, live =>
    let live2 := applyAct a live
    let r := firePass rest live2
    (t :: r.1, r.2)

/-- Result of one call to the Done-transition function: the node state after
the call, the tokens of the handlers that were invoked during it, and
whether the call threw the must-have-an-error Error of line 220. -/
structure CancelResult where
  state : NodeState
  fired : List Nat
  threw : Bool
deriving DecidableEq

/-- The Done-transition function stored under symCancelFunc
(lines 218-233).  A falsy cause throws before any field is written; a node
whose error is already set makes the call a no-op; otherwise the error is
set, every handler in the snapshot of the handler list is invoked in order,
the list field is then cleared, and the parent subscription is released and
nulled. -/
def symCancelFunc (s : NodeState) (err : JSVal) : CancelResult :=
  if truthy err then
    if s.error.isSome then ⟨s, [], false⟩
    else
      let fired := (firePass s.doneHandlers s.doneHandlers).1
      ⟨⟨some err, [], false⟩, fired, false⟩
  else ⟨s, [], true⟩

/-- Result of a doneHandler call: the state after the call, whether f was
invoked synchronously (the already-Done path of lines 202-205), and whether
a real unregister closure rather than the no-op of line 107 was returned. -/
structure DoneHandlerResult where
  state : NodeState
  invoked : Bool
  registered : Bool
deriving DecidableEq

/-- The doneHandler method (lines 201-212): on a node whose error is set the
handler runs at once and the no-op unregister is returned; otherwise the
pair of a fresh token and the handler is pushed onto the list and a real
unregister closure is returned.  The caller supplies the token t modelling
the fresh Symbol of line 207. -/
def doneHandler (s : NodeState) (t : Nat) (a : HandlerAct) : DoneHandlerResult :=
  if s.error.isSome then ⟨s, true, false⟩
  else ⟨⟨s.error, s.doneHandlers ++ [(t, a)], s.unregParent⟩, false, true⟩

/-- The unregister closure returned by doneHandler (lines 209-211): replaces
the handler-list field with a copy from which every entry carrying the token
has been filtered out. -/
def unregister (s : NodeState) (t : Nat) : NodeState :=
  { s with doneHandlers := s.doneHandlers.filter (fun x => x.1 ≠ t) }

/-- The _CancelContext constructor (lines 179-195).  parentError is the
error of the parent at construction time, dl the optional deadline and now
the current time, both as millisecond timestamps.  Returns the state of the
new node and whether a timer was scheduled (the setTimeout of line 193).
When the parent is already Done, its doneHandler runs the propagation
handler of lines 182-185 synchronously during registration, nulling the
unregister field and cancelling this node with the parent error; the
assignment of line 182 then stores the returned no-op, so the field ends
non-null.  Afterwards, if a deadline was supplied and the node is still
Active, a non-positive time remaining runs the deadline transition
synchronously (lines 190-191), else a timer is scheduled (line 193). -/
def cancelCtor (parentError : Option JSVal) (dl : Option Int) (now : Int) :
    NodeState × Bool :=
  let s1 : NodeState :=
    match parentError with
    | some pe => { (symCancelFunc ⟨none, [], false⟩ pe).state with unregParent := true }
    | none => ⟨none, [], true⟩
  match dl with
  | some d =>
    if s1.error = none then
      if d - now ≤ 0 then ((symCancelFunc s1 JSVal.errDeadline).state, false)
      else (s1, true)
    else (s1, false)
  | none => (s1, false)

/-- Cancellation of a parent-to-child chain of cancel contexts, listed
topmost first as their error slots.  Each Active node carries the
propagation handler its child installed at lines 182-185, so setting its
error fires that handler, which cancels the child with the error just set;
a Done node stops the walk by the guard of line 222 and has no attached
child handlers left, having fired and cleared them at its own transition
(lines 226-228). -/
def cancelChain (e : JSVal) : List (Option JSVal) → List (Option JSVal)
  | [] => []
  | none :: rest => if truthy e then some e :: cancelChain e rest else none :: rest
  | some c :: rest => some c :: rest

/-- The trigger function returned by withDeadline, and hence by withCancel
(line 242): it invokes the Done transition passing the arguments
(true, cancelledError), so the single declared parameter err binds the
boolean true and the CancelledError value is a discarded extra argument. -/
def triggerCancel (chain : List (Option JSVal)) : List (Option JSVal) :=
  cancelChain JSVal.vtrue chain

/-- The context tree as built by the composition functions: empty stands for
the background and todo roots, value for withValue, and cancel for a
_CancelContext carrying its own optional deadline as a millisecond
timestamp. -/
inductive Ctx where
  | empty
  | value (parent : Ctx) (k : Nat) (v : JSVal)
  | cancel (parent : Ctx) (ownDeadline : Option Int)
deriving DecidableEq

/-- The deadline getter: null on a root (line 109), the parent deadline on a
value context (line 153), and on a cancel context the own deadline when one
was declared, else the parent deadline (line 197). -/
def deadline : Ctx → Option Int
  | .empty => none
  | .value p _ _ => deadline p
  | .cancel p d =>
    match d with
    | some x => some x
    | none => deadline p

/-- Modelled from the claim wording, for comparison with deadline: the
reported deadline as the minimum of the own declared deadline (if any) and
the parent reported deadline. -/
def deadlineMinRule : Ctx → Option Int
  | .empty => none
  | .value p _ _ => deadlineMinRule p
  | .cancel p d =>
    match d, deadlineMinRule p with
    | some x, some y => some (min x y)
    | some x, none => some x
    | none, dp => dp

/-- The handler-list invariant of a cancel context: a node whose error is
set holds no stored handlers. -/
def handlersCleared (s : NodeState) : Prop :=
  s.error = none ∨ s.doneHandlers = []

/-- Settlement of a JavaScript promise: it either resolves with a value or
rejects with a reason. -/
inductive Settle where
  | resolved (x : JSVal)
  | rejected (e : JSVal)
deriving DecidableEq

/-- Events delivered to the two inner promises of raceContext after the
initial check passed: the promise returned by f settles, or the context
transitions to Done so the handler registered through expiryPromise
(lines 264-270) rejects with the context cause. -/
inductive RaceEvent where
  | fSettles (r : Settle)
  | ctxExpires (cause : JSVal)
deriving DecidableEq

/-- State of the promise returned by raceContext while events arrive: its
settlement, where resolve and reject on an already settled promise are
no-ops as the Promise specification requires; the aborted flag of line 289;
and the values passed to cleanupFunc so far. -/
structure RaceSt where
  settled : Option Settle
  aborted : Bool
  cleanupCalls : List JSVal
deriving DecidableEq

/-- One event step of raceContext (lines 291-305).  When the promise of f
resolves with x, cleanupFunc(x) runs first if the promise was aborted and a
cleanupFunc was supplied, then resolve(x) is attempted (lines 293-297).
When it rejects, reject is attempted with its reason (line 298).  When the
context expires, aborted is set and reject is attempted with the context
cause (lines 300-304).  cs records whether a cleanupFunc was supplied. -/
def raceStep (cs : Bool) (s : RaceSt) : RaceEvent → RaceSt
  | .fSettles (.resolved x) =>
    let s1 := if s.aborted && cs then
      { s with cleanupCalls := s.cleanupCalls ++ [x] } else s
    if s1.settled.isSome then s1 else { s1 with settled := some (.resolved x) }
  | .fSettles (.rejected e) =>
    if s.settled.isSome then s else { s with settled := some (.rejected e) }
  | .ctxExpires c =>
    let s1 := { s with aborted := true }
    if s1.settled.isSome then s1 else { s1 with settled := some (.rejected c) }

/-- Observable outcome of a raceContext call: how the returned promise
settled, the values handed to cleanupFunc, and whether f was invoked. -/
structure RaceResult where
  settled : Option Settle
  cleanupCalls : List JSVal
  fInvoked : Bool
deriving DecidableEq

/-- The raceContext function (lines 285-306).  ctxError is the error of the
context at the call, cs tells whether a cleanupFunc was supplied, and events
is the order in which the two inner promises settle afterwards.  If the
context is already Done an already-rejected promise carrying its error is
returned and f is never invoked (lines 286-287); otherwise f is invoked at
once inside the promise executor and the later events are folded over the
initial unsettled state. -/
def raceContextRun (ctxError : Option JSVal) (cs : Bool)
    (events : List RaceEvent) : RaceResult :=
  match ctxError with
  | some e => ⟨some (.rejected e), [], false⟩
  | none =>
    let fin := events.foldl (raceStep cs) ⟨none, false, []⟩
    ⟨fin.settled, fin.cleanupCalls, true⟩

/-- The firing loop invokes every handler present in the snapshot, in order,
whatever the handler bodies do to the live field. -/
theorem firePass_fired (snap : List (Nat × HandlerAct)) :
    ∀ live, (firePass snap live).1 = snap.map Prod.fst := by
  induction snap with
  | nil => intro live; rfl
  | cons h rest ih =>
    intro live
    obtain ⟨t, a⟩ := h
    simp [firePass, ih]

/-- One race event never changes an already settled promise. -/
theorem raceStep_settled_stable (cs : Bool) (s : RaceSt) (e : RaceEvent)
    (h : s.settled.isSome) : (raceStep cs s e).settled = s.settled := by
  cases e with
  | fSettles r =>
    cases r with
    | resolved x =>
      simp only [raceStep]
      split <;> simp_all
    | rejected y =>
      simp only [raceStep]
      split <;> simp_all
  | ctxExpires c =>
    simp only [raceStep]
    split <;> simp_all

/-- A sequence of race events never changes an already settled promise. -/
theorem raceFold_settled_stable (cs : Bool) (evs : List RaceEvent) :
    ∀ s : RaceSt, s.settled.isSome →
      (evs.foldl (raceStep cs) s).settled = s.settled := by
  induction evs with
  | nil => intro s _; rfl
  | cons e rest ih =>
    intro s hs
    have h1 : (raceStep cs s e).settled = s.settled :=
      raceStep_settled_stable cs s e hs
    rw [List.foldl_cons, ih (raceStep cs s e) (by rw [h1]; exact hs), h1]

/-- Claim C1, evaluated at the failing input: the trigger returned by
withCancel or withDeadline passes the boolean true as the cancellation
cause (line 242), so after calling cancel() on a fresh parent with one
Active derived child both error slots hold the boolean true, which is not
the CancelledError value the claim names. -/
theorem trigger_sets_true_not_cancelled_cause :
    triggerCancel [none, none] = [some JSVal.vtrue, some JSVal.vtrue] ∧
    JSVal.vtrue ≠ JSVal.errCancelled := by
  decide

/-- Claim C2 counterexample: a cancel context with own deadline 10 whose
parent reports deadline 5 reports 10, not the minimum 5 that the claim
requires. -/
theorem deadline_not_min :
    deadline (Ctx.cancel (Ctx.cancel Ctx.empty (some 5)) (some 10)) = some 10 ∧
    deadlineMinRule (Ctx.cancel (Ctx.cancel Ctx.empty (some 5)) (some 10)) = some 5 ∧
    deadline (Ctx.cancel (Ctx.cancel Ctx.empty (some 5)) (some 10)) ≠
      deadlineMinRule (Ctx.cancel (Ctx.cancel Ctx.empty (some 5)) (some 10)) := by
  decide

/-- Claim C2 amended: a cancel context reports its own declared deadline
when present, even when the parent reports an earlier one, and falls back to
the parent reported deadline only when it declared none; value and root
contexts delegate and report null respectively.  The minimum rule of the
claim holds exactly when the own deadline is no later than the parent
one. -/
theorem deadline_own_else_parent (p : Ctx) (x y : Int) (k : Nat) (v : JSVal)
    (hp : deadline p = some y) (hxy : x ≤ y) :
    deadline (Ctx.cancel p (some x)) = some x ∧
    deadline (Ctx.cancel p none) = some y ∧
    deadline (Ctx.value p k v) = some y ∧
    deadline Ctx.empty = none ∧
    deadline (Ctx.cancel p (some x)) = some (min x y) := by
  refine ⟨rfl, ?_, ?_, rfl, ?_⟩
  · simpa [deadline] using hp
  · simpa [deadline] using hp
  · simp [deadline, min_eq_left hxy]

/-- Witness for the amended claim C2 at a concrete tree. -/
theorem deadline_own_else_parent_witness :
    deadline (Ctx.cancel (Ctx.cancel Ctx.empty (some 9)) (some 3)) = some 3 ∧
    deadline (Ctx.cancel (Ctx.cancel Ctx.empty (some 9)) none) = some 9 ∧
    deadline (Ctx.value (Ctx.cancel Ctx.empty (some 9)) 0 JSVal.vnull) = some 9 ∧
    deadline Ctx.empty = none ∧
    deadline (Ctx.cancel (Ctx.cancel Ctx.empty (some 9)) (some 3)) =
      some (min 3 9) :=
  deadline_own_else_parent (Ctx.cancel Ctx.empty (some 9)) 3 9 0 JSVal.vnull
    (by decide) (by decide)

/-- Claim C3 counterexample: two handlers are queued on an Active node; when
the node transitions, the first handler fires and calls the unregister
closure of the second while the pass is still running and before the second
has fired.  The pass iterates the snapshot of the handler list, so the
second handler is invoked anyway, refuting the claim for unregister calls
made inside the firing pass. -/
theorem unregister_inside_pass_does_not_stop_firing :
    2 ∈ (symCancelFunc ⟨none, [(1, HandlerAct.unreg 2), (2, HandlerAct.nop)], true⟩
      JSVal.vtrue).fired := by
  decide

/-- Claim C3 amended: calling the unregister closure of a handler registered
on an Active node at any point before the Done transition begins removes the
handler, which is then never invoked; an unregister call made from within an
earlier handler of the same firing pass, by contrast, does not prevent the
handler from firing in that pass. -/
theorem unregister_before_transition (s : NodeState) (t : Nat)
    (a : HandlerAct) (e : JSVal) (hA : s.error = none) :
    t ∉ (symCancelFunc (unregister (doneHandler s t a).state t) e).fired := by
  have hreg : (doneHandler s t a).state =
      ⟨s.error, s.doneHandlers ++ [(t, a)], s.unregParent⟩ := by
    simp [doneHandler, hA]
  by_cases he : truthy e
  · intro hmem
    rw [hreg] at hmem
    simp only [symCancelFunc, unregister, hA, he, if_true, Option.isSome_none,
      Bool.false_eq_true, if_false, firePass_fired] at hmem
    obtain ⟨⟨t2, a2⟩, hin, heq⟩ := List.mem_map.mp hmem
    have := (List.mem_filter.mp hin).2
    simp_all
  · simp [symCancelFunc, he]

/-- Witness for the amended claim C3 at a concrete node and token. -/
theorem unregister_before_transition_witness :
    (⟨none, [], true⟩ : NodeState).error = none ∧
    5 ∉ (symCancelFunc
      (unregister (doneHandler ⟨none, [], true⟩ 5 HandlerAct.nop).state 5)
      JSVal.vtrue).fired :=
  ⟨rfl, unregister_before_transition ⟨none, [], true⟩ 5 HandlerAct.nop
    JSVal.vtrue rfl⟩

/-- Claim C4: cancelling the topmost node of a chain of Active cancel
contexts, each derived from the previous one, with a truthy cause sets the
error of every node of the chain to that cause; the recursion is the single
synchronous pass of lines 218-233 with the propagation handlers of
lines 182-185, and the result holds for chains of every length. -/
theorem chain_propagation (chain : List (Option JSVal)) (e : JSVal)
    (hact : ∀ x ∈ chain, x = none) (he : truthy e = true) :
    cancelChain e chain = chain.map (fun _ => some e) := by
  induction chain with
  | nil => rfl
  | cons hd rest ih =>
    have hhd : hd = none := hact hd (List.mem_cons_self _ _)
    subst hhd
    simp [cancelChain, he, ih (fun x hx => hact x (List.mem_cons_of_mem _ hx))]

/-- Witness for claim C4 on a concrete chain of three Active nodes. -/
theorem chain_propagation_witness :
    (∀ x ∈ ([none, none, none] : List (Option JSVal)), x = none) ∧
    cancelChain JSVal.errDeadline [none, none, none] =
      ([none, none, none] : List (Option JSVal)).map
        (fun _ => some JSVal.errDeadline) :=
  ⟨by decide, chain_propagation [none, none, none] JSVal.errDeadline
    (by decide) rfl⟩

/-- Claim C5: on a node whose error is absent, the first Done transition
with a truthy cause records exactly that cause, and a second transition
attempt with any cause afterwards leaves the node state unchanged and fires
no handler. -/
theorem error_monotonic (s : NodeState) (e1 e2 : JSVal)
    (hA : s.error = none) (h1 : truthy e1 = true) :
    (symCancelFunc s e1).state.error = some e1 ∧
    (symCancelFunc (symCancelFunc s e1).state e2).state =
      (symCancelFunc s e1).state ∧
    (symCancelFunc (symCancelFunc s e1).state e2).fired = [] := by
  have hstate : (symCancelFunc s e1).state = ⟨some e1, [], false⟩ := by
    simp [symCancelFunc, h1, hA]
  rw [hstate]
  by_cases h2 : truthy e2 <;> simp [symCancelFunc, h2]

/-- Witness for claim C5 at a concrete node carrying one handler. -/
theorem error_monotonic_witness :
    (⟨none, [(7, HandlerAct.nop)], true⟩ : NodeState).error = none ∧
    truthy JSVal.vtrue = true ∧
    ((symCancelFunc ⟨none, [(7, HandlerAct.nop)], true⟩ JSVal.vtrue).state.error =
        some JSVal.vtrue ∧
      (symCancelFunc
          (symCancelFunc ⟨none, [(7, HandlerAct.nop)], true⟩ JSVal.vtrue).state
          JSVal.errDeadline).state =
        (symCancelFunc ⟨none, [(7, HandlerAct.nop)], true⟩ JSVal.vtrue).state ∧
      (symCancelFunc
          (symCancelFunc ⟨none, [(7, HandlerAct.nop)], true⟩ JSVal.vtrue).state
          JSVal.errDeadline).fired = []) :=
  ⟨rfl, rfl, error_monotonic ⟨none, [(7, HandlerAct.nop)], true⟩ JSVal.vtrue
    JSVal.errDeadline rfl rfl⟩

/-- Claim C6: with the context Active at the call and expiry arriving before
the promise of f settles, the promise returned by raceContext is rejected
with the context cause and stays rejected with it whatever arrives later, so
the caller observes exactly one failure and never a success; a later
resolution with x feeds a supplied cleanup exactly once with x and is never
surfaced; a later rejection of f is dropped, reaching neither the caller nor
cleanup; with no later settlement cleanup never runs. -/
theorem raceContext_expiry_first (c x e : JSVal) (cs : Bool) :
    (∀ evs : List RaceEvent,
      (raceContextRun none cs (RaceEvent.ctxExpires c :: evs)).settled =
        some (Settle.rejected c)) ∧
    (raceContextRun none true [RaceEvent.ctxExpires c,
        RaceEvent.fSettles (Settle.resolved x)]).cleanupCalls = [x] ∧
    (raceContextRun none false [RaceEvent.ctxExpires c,
        RaceEvent.fSettles (Settle.resolved x)]).cleanupCalls = [] ∧
    (raceContextRun none cs [RaceEvent.ctxExpires c,
        RaceEvent.fSettles (Settle.rejected e)]).cleanupCalls = [] ∧
    (raceContextRun none cs [RaceEvent.ctxExpires c]).cleanupCalls = [] := by
  refine ⟨?_, ?_, ?_, ?_, ?_⟩
  · intro evs
    have h1 : raceStep cs ⟨none, false, []⟩ (RaceEvent.ctxExpires c) =
        ⟨some (Settle.rejected c), true, []⟩ := by
      simp [raceStep]
    simp only [raceContextRun, List.foldl_cons, h1]
    exact raceFold_settled_stable cs evs ⟨some (Settle.rejected c), true, []⟩ rfl
  · simp [raceContextRun, raceStep]
  · simp [raceContextRun, raceStep]
  · simp [raceContextRun, raceStep]
  · simp [raceContextRun, raceStep]

/-- Claim C7: when the error of the context is already present at the call,
raceContext returns an already-rejected promise carrying that error, no
later event changes that, f is never invoked and cleanup never runs. -/
theorem raceContext_already_done (e : JSVal) (cs : Bool)
    (evs : List RaceEvent) :
    raceContextRun (some e) cs evs = ⟨some (Settle.rejected e), [], false⟩ :=
  rfl

/-- Claim C8: invoking the Done transition with an absent cause throws the
must-have-an-error Error, and whatever the current state of the node, its
error slot and handler list are unchanged and no handler fires. -/
theorem cancel_without_cause_throws (s : NodeState) :
    (symCancelFunc s JSVal.vnull).threw = true ∧
    (symCancelFunc s JSVal.vnull).state = s ∧
    (symCancelFunc s JSVal.vnull).fired = [] := by
  simp [symCancelFunc, truthy]

/-- Claim C9: constructing a cancel context under a parent whose error is
absent, with a deadline not after the current time, yields a node that is
already Done with the DeadlineExceeded cause before the constructor returns,
and no timer is scheduled. -/
theorem past_deadline_done_at_birth (d now : Int) (hd : d - now ≤ 0) :
    cancelCtor none (some d) now =
      (⟨some JSVal.errDeadline, [], false⟩, false) := by
  simp [cancelCtor, symCancelFunc, truthy, firePass, hd]

/-- Witness for claim C9 at a deadline four units in the past. -/
theorem past_deadline_done_at_birth_witness :
    (5 : Int) - 9 ≤ 0 ∧
    cancelCtor none (some 5) 9 =
      (⟨some JSVal.errDeadline, [], false⟩, false) :=
  ⟨by decide, past_deadline_done_at_birth 5 9 (by decide)⟩

/-- Claim C10: on a node satisfying the invariant that a present error comes
with an empty handler list, the Done transition, doneHandler and the
unregister closure all preserve the invariant; on an Active node the Done
transition with a truthy cause fires exactly the stored handlers, in order,
and clears the list; and doneHandler on a Done node runs the handler at
once, stores nothing and returns the no-op unregister. -/
theorem done_nodes_hold_no_handlers (s : NodeState) (e : JSVal) (t : Nat)
    (a : HandlerAct) (hinv : handlersCleared s) (he : truthy e = true) :
    handlersCleared (symCancelFunc s e).state ∧
    handlersCleared (doneHandler s t a).state ∧
    handlersCleared (unregister s t) ∧
    (s.error = none →
      (symCancelFunc s e).fired = s.doneHandlers.map Prod.fst ∧
      (symCancelFunc s e).state.doneHandlers = []) ∧
    (s.error.isSome = true → doneHandler s t a = ⟨s, true, false⟩) := by
  rcases hs : s.error with _ | c
  · refine ⟨?_, ?_, ?_, ?_, ?_⟩
    · simp [symCancelFunc, he, hs, handlersCleared]
    · simp [doneHandler, hs, handlersCleared]
    · simp [unregister, handlersCleared, hs]
    · intro _
      simp [symCancelFunc, he, hs, firePass_fired]
    · intro hcontra
      simp at hcontra
  · have hempty : s.doneHandlers = [] := by
      rcases hinv with h | h
      · rw [hs] at h; exact absurd h (by simp)
      · exact h
    refine ⟨?_, ?_, ?_, ?_, ?_⟩
    · simpa [symCancelFunc, he, hs] using hinv
    · simpa [doneHandler, hs] using hinv
    · simp [unregister, handlersCleared, hempty]
    · intro hcontra
      exact absurd hcontra (by simp)
    · intro _
      simp [doneHandler, hs]

/-- Witness for claim C10 at a Done node with an empty handler list. -/
theorem done_nodes_hold_no_handlers_witness :
    handlersCleared ⟨some JSVal.errCancelled, [], false⟩ ∧
    truthy JSVal.vtrue = true ∧
    (handlersCleared
        (symCancelFunc ⟨some JSVal.errCancelled, [], false⟩ JSVal.vtrue).state ∧
      handlersCleared
        (doneHandler ⟨some JSVal.errCancelled, [], false⟩ 0 HandlerAct.nop).state ∧
      handlersCleared (unregister ⟨some JSVal.errCancelled, [], false⟩ 0) ∧
      ((⟨some JSVal.errCancelled, [], false⟩ : NodeState).error = none →
        (symCancelFunc ⟨some JSVal.errCancelled, [], false⟩ JSVal.vtrue).fired =
          (⟨some JSVal.errCancelled, [], false⟩ : NodeState).doneHandlers.map
            Prod.fst ∧
        (symCancelFunc ⟨some JSVal.errCancelled, [], false⟩
            JSVal.vtrue).state.doneHandlers = []) ∧
      ((⟨some JSVal.errCancelled, [], false⟩ : NodeState).error.isSome = true →
        doneHandler ⟨some JSVal.errCancelled, [], false⟩ 0 HandlerAct.nop =
          ⟨⟨some JSVal.errCancelled, [], false⟩, true, false⟩)) :=
  ⟨Or.inr rfl, rfl, done_nodes_hold_no_handlers
    ⟨some JSVal.errCancelled, [], false⟩ JSVal.vtrue 0 HandlerAct.nop
    (Or.inr rfl) rfl⟩

end JsCtx
